import Mathlib

/-
Verification of the SSL-augmented off-policy training core
(stable_baselines3/common/off_policy_algorithm.py).

The embedding below translates the Python source into Lean definitions:
transitions and experience stores are explicit data, the transition router
(`_store_transition`), the rollout collector (`collect_rollouts`), the
pseudo-labeling refresh cycle inside `learn`, and the training gate are all
modelled as pure functions on an explicit algorithm state.  Numpy idioms
(`np.unique` with `return_index` followed by `np.sort`, `np.delete`,
`np.arange`) are translated index-for-index.

Helper modules of the repository that are not part of the provided source
(`utils.construct_connected_W`, `utils.infer_rewards_SSL`,
`utils.rewards_to_labels`, the replay-buffer class) are modelled from the
specification; each such definition carries a doc comment saying so.
-/

namespace SSL

/-- A single environment transition as stored in the experience buffers
(observation, next observation, action, reward, done flag, timeout flag).
Observations are rational vectors, actions are integers (discrete spaces). -/
structure Transition where
  obs : List ℚ
  nextObs : List ℚ
  action : ℤ
  reward : ℚ
  done : Bool
  timeout : Bool
deriving DecidableEq

instance : Inhabited Transition := ⟨⟨[], [], 0, 0, false, false⟩⟩

/-- The configuration recorded by `OffPolicyAlgorithm.__init__`: routing
probability `p`, the pseudo-labeling switch, the SSL cadence `ssl_freq`,
the training warm-up `learning_starts`, `gradient_steps`, the number of
parallel environments, the configured action-space size, and the SSL
method name. -/
structure Config where
  p : ℚ
  pseudoMode : Bool
  sslFreq : ℕ
  learningStarts : ℕ
  gradientSteps : ℤ
  nEnvs : ℕ
  nActions : ℕ
  method : String
deriving DecidableEq

/-- The configuration-error taxonomy named by the specification
(unsupported SSL method, cadence at most zero, probability outside the
unit interval). -/
inductive ConfigError where
  | unsupportedMethod : ConfigError
  | invalidCadence : ConfigError
  | invalidProbability : ConfigError
deriving DecidableEq

/-- Translation of `OffPolicyAlgorithm.__init__` restricted to the SSL
configuration parameters.  The return type allows a `ConfigError`, but the
constructor performs no validation whatsoever: it only records the
arguments, exactly as the Python constructor does. -/
def offPolicyInit (method : String) (sslFreq : ℕ) (p : ℚ) (pseudoMode : Bool)
    (learningStarts : ℕ) (gradientSteps : ℤ) (nEnvs nActions : ℕ) :
    Except ConfigError Config :=
  Except.ok { p := p, pseudoMode := pseudoMode, sslFreq := sslFreq,
              learningStarts := learningStarts, gradientSteps := gradientSteps,
              nEnvs := nEnvs, nActions := nActions, method := method }

/-- Modelled from the spec: the Experience Store of section 4.1 (the
replay-buffer class is not part of the provided source).  A fixed-capacity
store whose observable content is the list of the most recent `capacity`
insertions in insertion order; `add` evicts the oldest entry once full. -/
structure Store where
  capacity : ℕ
  entries : List Transition
deriving DecidableEq

/-- Modelled from the spec: `add` writes the transition, silently evicting
the oldest entry once the store is full. -/
def Store.add (st : Store) (t : Transition) : Store :=
  { st with entries := (st.entries ++ [t]).drop (st.entries.length + 1 - st.capacity) }

/-- Modelled from the spec: `size` is the number of currently valid entries. -/
def Store.size (st : Store) : ℕ := st.entries.length

/-- Modelled from the spec: `reset` clears the store to the empty state. -/
def Store.reset (st : Store) : Store := { st with entries := [] }

/-- Modelled from the spec: `extend` adds a batch of transitions one by one. -/
def Store.extendList (st : Store) (ts : List Transition) : Store :=
  ts.foldl Store.add st

/-- The mutable algorithm state carried by the training loop: the global
timestep counter `num_timesteps`, the labeled replay buffer, the unlabeled
replay buffer, the pseudo (SSL) replay buffer, and whether an unlabeled
buffer is configured (`unlabeled_replay_buffer is not None`). -/
structure AlgState where
  T : ℕ
  labeled : Store
  unlabeled : Store
  pseudo : Store
  hasUnlabeledBuffer : Bool
deriving DecidableEq

/-- The three possible destinations of an incoming transition. -/
inductive RouteTarget where
  | labeled : RouteTarget
  | unlabeled : RouteTarget
  | discard : RouteTarget
deriving DecidableEq

/-- The routing decision of `_store_transition` (lines 673-693): one uniform
draw `u`; the labeled store if `u < p`, otherwise the unlabeled store when
one is configured, otherwise the transition is dropped. -/
def route (u p : ℚ) (hasUnlabeled : Bool) : RouteTarget :=
  if u < p then RouteTarget.labeled
  else if hasUnlabeled then RouteTarget.unlabeled
  else RouteTarget.discard

/-- Translation of the storage effect of `_store_transition`: the transition
is added to exactly one store according to the single draw `u`, or dropped. -/
def storeTransition (cfg : Config) (u : ℚ) (t : Transition) (s : AlgState) : AlgState :=
  if u < cfg.p then { s with labeled := s.labeled.add t }
  else if s.hasUnlabeledBuffer then { s with unlabeled := s.unlabeled.add t }
  else s

/-- One collection step of `collect_rollouts`: the environment is stepped,
`num_timesteps` advances by the number of parallel environments (line 759),
and the resulting transition batch is routed by `_store_transition` using
one uniform draw `u`. -/
def collectStep (cfg : Config) (s : AlgState) (inp : ℚ × Transition) : AlgState :=
  storeTransition cfg inp.1 inp.2 { s with T := s.T + cfg.nEnvs }

/-- Translation of the `collect_rollouts` loop: it consumes a finite stream
of (uniform draw, transition) pairs, one per collected step. -/
def collectRollouts (cfg : Config) (inputs : List (ℚ × Transition)) (s : AlgState) : AlgState :=
  inputs.foldl (collectStep cfg) s

/-- Translation of the hard-coded one-hot encoding of actions in the refresh
cycle (line 421-422): `gl.utils.labels_to_onehot(actions, 4).reshape(-1, 4)`.
The width is the literal `4`; the configured action space (`cfg`) is in scope
but never consulted.  For an action in `{0,1,2,3}` the result is the
corresponding unit vector; otherwise no component is set. -/
def cycleActionOneHot (_cfg : Config) (a : ℤ) : List ℚ :=
  (List.range 4).map (fun j => if a = (j : ℤ) then (1 : ℚ) else 0)

/-- The unit vector of length `n` with a one in component `i`, used to state
what a well-formed one-hot encoding is. -/
def unitVec (n i : ℕ) : List ℚ :=
  (List.range n).map (fun j => if j = i then (1 : ℚ) else 0)

/-- The state-action feature vector built by the refresh cycle
(lines 424-425): the observation concatenated with the one-hot encoded
action. -/
def stateActionFeature (cfg : Config) (t : Transition) : List ℚ :=
  t.obs ++ cycleActionOneHot cfg t.action

/-- The feature matrix of a data snapshot: one state-action feature vector
per transition, in snapshot order. -/
def featureList (cfg : Config) (data : List Transition) : List (List ℚ) :=
  data.map (stateActionFeature cfg)

/-- Element lookup with the type's default element, standing in for numpy
array indexing (all indices produced below are in range). -/
def getd {α : Type} [Inhabited α] (xs : List α) (i : ℕ) : α :=
  xs.getD i default

/-- Position `i` holds the first occurrence of its value in `xs`. -/
def firstOcc {α : Type} [Inhabited α] [DecidableEq α] (xs : List α) (i : ℕ) : Prop :=
  ∀ j, j < i → getd xs j ≠ getd xs i

instance {α : Type} [Inhabited α] [DecidableEq α] (xs : List α) (i : ℕ) :
    Decidable (firstOcc xs i) := by
  unfold firstOcc; infer_instance

/-- Translation of the index part of the numpy idiom
`_, ind = np.unique(X, axis=0, return_index=True); ind = np.sort(ind)`:
the ascending list of positions that hold the first occurrence of their
value. -/
def uniqueIdxs {α : Type} [Inhabited α] [DecidableEq α] (xs : List α) : List ℕ :=
  (List.range xs.length).filter (fun i => decide (firstOcc xs i))

/-- Fancy indexing `xs[idx]` for an index list. -/
def selectIdx {α : Type} [Inhabited α] (xs : List α) (idx : List ℕ) : List α :=
  idx.map (getd xs)

/-- Translation of the full numpy deduplication idiom used by the cycle
(lines 442-460): `X[np.sort(np.unique(X, axis=0, return_index=True)[1])]`. -/
def npDedup {α : Type} [Inhabited α] [DecidableEq α] (xs : List α) : List α :=
  selectIdx xs (uniqueIdxs xs)

/-- Translation of `np.delete(xs, idx)`: drop the entries whose position is
listed in `idx`, keeping the rest in order. -/
def deleteIdx {α : Type} [Inhabited α] (xs : List α) (idx : List ℕ) : List α :=
  ((List.range xs.length).filter (fun i => !(idx.contains i))).map (getd xs)

/-- Auxiliary first-occurrence deduplication with an accumulator of values
already seen; entries whose value was seen are dropped, the rest keep their
relative order. -/
def dedupFirstAux {α : Type} [DecidableEq α] (seen : List α) : List α → List α
  | [] => []
  | x :: xs => if x ∈ seen then dedupFirstAux seen xs else x :: dedupFirstAux (x :: seen) xs

/-- Deduplication preserving first-occurrence order, the operation described
by the specification of the graph builder (section 4.3). -/
def dedupFirst {α : Type} [DecidableEq α] (xs : List α) : List α :=
  dedupFirstAux [] xs

/-- The ordered node sequence of the similarity graph exactly as the cycle
computes it (lines 442-460): deduplicate the unlabeled and the labeled
feature sets separately, concatenate unlabeled-then-labeled, deduplicate the
concatenation again, each pass via the numpy first-occurrence idiom. -/
def mergedNodes (cfg : Config) (lData uData : List Transition) : List (List ℚ) :=
  npDedup (npDedup (featureList cfg uData) ++ npDedup (featureList cfg lData))

/-- The recoverable error taxonomy of the refresh cycle named by the
specification (section 7), plus the configuration error raised by the
inference engine for an unknown method. -/
inductive SSLError where
  | insufficientData : SSLError
  | noLabeledSeed : SSLError
  | numericalInstability : SSLError
  | configurationIssue : SSLError
deriving DecidableEq

/-- Squared Euclidean distance between two feature vectors. -/
def sqdist (v w : List ℚ) : ℚ :=
  (List.zipWith (fun a b => (a - b) * (a - b)) v w).sum

/-- Modelled from the spec: the weight matrix produced by
`construct_connected_W` (section 4.3; the helper is not part of the provided
source).  A similarity kernel over the node set: symmetric, nonnegative,
zero on the diagonal, positive on every other pair, hence connected. -/
def wkernel (x : List (List ℚ)) : ℕ → ℕ → ℚ :=
  fun i j => if i = j then 0 else 1 / (1 + sqdist (getd x i) (getd x j))

/-- Modelled from the spec: `construct_connected_W` (section 4.3).  It fails
with `InsufficientDataError` when the final unique node set is empty and
otherwise returns a connected similarity weight matrix. -/
def constructConnectedW (x : List (List ℚ)) : Except SSLError (ℕ → ℕ → ℚ) :=
  if x.isEmpty then Except.error SSLError.insufficientData
  else Except.ok (wkernel x)

/-- Truncation toward zero, the semantics of numpy's `astype(int)` applied
to a rational reward. -/
def truncToInt (q : ℚ) : ℤ := q.num / (q.den : ℤ)

/-- Modelled from the spec: `rewards_to_labels` (section 3; the helper is
not part of the provided source).  It builds, fresh from the observed
labeled rewards, a bijection between the distinct reward values and the
class labels `0..k-1` (here: ascending reward order), and returns the
labels of the input rewards together with the reward alphabet; label `l`
inversely maps to `alphabet[l]`. -/
def rewardsToLabels (rs : List ℤ) : List ℕ × List ℤ :=
  let alphabet := List.insertionSort (fun a b => a ≤ b) (dedupFirst rs)
  (rs.map (fun r => alphabet.findIdx (fun x => x == r)), alphabet)

/-- Modelled from the spec: the method names accepted by the pluggable SSL
inference engine (section 4.4). -/
def supportedMethods : List String := ["Laplace", "Poisson"]

/-- Index of the greatest weight in a list of candidate positions, earliest
position winning ties. -/
def argmaxIdx (w : ℕ → ℚ) : List ℕ → ℕ
  | [] => 0
  | [k] => k
  | k :: rest =>
      let m := argmaxIdx w rest
      if w m > w k then m else k

/-- Modelled from the spec: `infer_rewards_SSL` (section 4.4; the helper is
not part of the provided source).  An unknown method fails with the
configuration error; an empty seed set fails with `NoLabeledSeedError`;
otherwise every node receives one predicted label: seeded nodes reproduce
their seed, and every other node receives the label of the seed it is most
strongly connected to in `w`. -/
def inferRewardsSSL (method : String) (n : ℕ) (w : ℕ → ℕ → ℚ)
    (trainLabels : List ℕ) (trainInd : List ℕ) : Except SSLError (List ℕ) :=
  if ¬ supportedMethods.contains method then Except.error SSLError.configurationIssue
  else if trainInd.isEmpty then Except.error SSLError.noLabeledSeed
  else Except.ok ((List.range n).map (fun i =>
    match trainInd.findIdx? (fun j => j == i) with
    | some k => trainLabels.getD k 0
    | none =>
        let k := argmaxIdx (fun k => w i (trainInd.getD k 0)) (List.range trainInd.length)
        trainLabels.getD k 0))

/-- The data produced by one successful refresh cycle: the graph nodes, the
seed indices and labels handed to inference, the predicted labels, the
reward alphabet of the cycle's label bijection, and the transitions written
into the pseudo store. -/
structure CycleResult where
  nodes : List (List ℚ)
  trainInd : List ℕ
  trainLabels : List ℕ
  predLabels : List ℕ
  alphabet : List ℤ
  pseudoEntries : List Transition
deriving DecidableEq

/-- Translation of the body of the pseudo-labeling refresh cycle in `learn`
(lines 399-512), operating on full-store snapshots of the labeled and
unlabeled data: feature construction, the three deduplication passes, graph
construction, reward discretization, `train_ind = np.arange(L)` over the
unique-labeled count, SSL inference, inverse label mapping, and the
repopulation content `np.delete(pseudo_rewards, train_ind)` paired with the
unique unlabeled transitions. -/
def pseudoCycle (cfg : Config) (lData uData : List Transition) :
    Except SSLError CycleResult :=
  let featU := featureList cfg uData
  let featL := featureList cfg lData
  let idxU := uniqueIdxs featU
  let idxL := uniqueIdxs featL
  let nodes := mergedNodes cfg lData uData
  match constructConnectedW nodes with
  | Except.error e => Except.error e
  | Except.ok w =>
      let uniqueLabeledRewards := (selectIdx (lData.map (fun t => t.reward)) idxL).map truncToInt
      let pair := rewardsToLabels uniqueLabeledRewards
      let trainLabels := pair.1
      let alphabet := pair.2
      let trainInd := List.range idxL.length
      match inferRewardsSSL cfg.method nodes.length w trainLabels trainInd with
      | Except.error e => Except.error e
      | Except.ok predLabels =>
          let pseudoRewards : List ℚ := predLabels.map (fun l => ((alphabet.getD l 0 : ℤ) : ℚ))
          let kept := deleteIdx pseudoRewards trainInd
          let uniqueUnl := selectIdx uData idxU
          Except.ok { nodes := nodes, trainInd := trainInd, trainLabels := trainLabels,
                      predLabels := predLabels, alphabet := alphabet,
                      pseudoEntries := List.zipWith (fun t r => { t with reward := r }) uniqueUnl kept }

/-- The refresh trigger of line 399: pseudo mode is on, the global timestep
count is divisible by `ssl_freq`, and it exceeds `learning_starts // 2`. -/
def refreshCond (cfg : Config) (t : ℕ) : Bool :=
  cfg.pseudoMode && (t % cfg.sslFreq == 0) && decide (cfg.learningStarts / 2 < t)

/-- Translation of the refresh segment of `learn` (lines 399-514): when the
trigger holds, the pseudo store is cleared and the cycle runs; on success
its entries repopulate the pseudo store, while a cycle error is returned to
the caller unhandled (there is no surrounding handler in the source), with
the pseudo store left as the clear left it. -/
def learnRefreshStep (cfg : Config) (s : AlgState) : AlgState × Option SSLError :=
  if refreshCond cfg s.T then
    let s1 := { s with pseudo := s.pseudo.reset }
    match pseudoCycle cfg s1.labeled.entries s1.unlabeled.entries with
    | Except.error e => (s1, some e)
    | Except.ok res => ({ s1 with pseudo := s1.pseudo.extendList res.pseudoEntries }, none)
  else (s, none)

/-- The gradient-step count resolution of lines 521-524: the configured
value when nonnegative, otherwise the number of environment steps of the
rollout. -/
def resolveGradSteps (cfg : Config) (inputs : List (ℚ × Transition)) : ℤ :=
  if 0 ≤ cfg.gradientSteps then cfg.gradientSteps else ((inputs.length * cfg.nEnvs : ℕ) : ℤ)

/-- The outcome of one iteration of the `learn` loop: the state it leaves
behind, the cycle error it propagates (if any), whether `train` was called,
and whether the refresh trigger fired at the rollout boundary. -/
structure IterResult where
  state : AlgState
  error : Option SSLError
  didTrain : Bool
  refreshAttempted : Bool
deriving DecidableEq

/-- Translation of one iteration of the `while` loop of `learn`
(lines 378-525): collect a rollout, then conditionally refresh, then call
`train` exactly when `num_timesteps > 0 and num_timesteps > learning_starts`
and the resolved gradient-step count is positive.  A refresh error aborts
the iteration before the training call, exactly as an uncaught Python
exception would. -/
def learnIteration (cfg : Config) (inputs : List (ℚ × Transition)) (s : AlgState) : IterResult :=
  let s1 := collectRollouts cfg inputs s
  let att := refreshCond cfg s1.T
  let step := learnRefreshStep cfg s1
  match step.2 with
  | some err => { state := step.1, error := some err, didTrain := false, refreshAttempted := att }
  | none =>
      let g := resolveGradSteps cfg inputs
      let dt := decide (0 < step.1.T) && decide (cfg.learningStarts < step.1.T) && decide (0 < g)
      { state := step.1, error := none, didTrain := dt, refreshAttempted := att }

/-- A run of the `learn` loop over a list of rollout input segments; an
uncaught refresh error ends the run at that iteration. -/
def learnRun (cfg : Config) : List (List (ℚ × Transition)) → AlgState → List IterResult
  | [], _ => []
  | r :: rest, s =>
      let it := learnIteration cfg r s
      if it.error.isSome then [it] else it :: learnRun cfg rest it.state

/-- The node indices of the unique-labeled partition of the merged graph as
the specification describes them (sections 4.4 and 4.5 step 4): the
positions of the merged node sequence whose feature vector belongs to the
deduplicated labeled feature set. -/
def specUniqueLabeledPartition (cfg : Config) (lData uData : List Transition) : List ℕ :=
  let nodes := mergedNodes cfg lData uData
  let uniqueL := npDedup (featureList cfg lData)
  (List.range nodes.length).filter (fun i => decide (getd nodes i ∈ uniqueL))

/-- A reference configuration: pseudo mode on, routing probability 1/2,
refresh cadence 1, no training warm-up. -/
def cfgA : Config :=
  { p := 1/2, pseudoMode := true, sslFreq := 1, learningStarts := 0,
    gradientSteps := 1, nEnvs := 1, nActions := 4, method := "Laplace" }

/-- An unlabeled transition at observation 0 with true reward 0. -/
def tA : Transition := ⟨[0], [0], 0, 0, false, false⟩

/-- An unlabeled transition at observation 10 with true reward 1. -/
def tA2 : Transition := ⟨[10], [10], 0, 1, false, false⟩

/-- A labeled transition at observation 9 with reward 0. -/
def tB : Transition := ⟨[9], [9], 0, 0, false, false⟩

/-- A labeled transition at observation 1 with reward 1. -/
def tB2 : Transition := ⟨[1], [1], 0, 1, false, false⟩

/-- A state at a refresh boundary with both data stores empty and a stale
entry in the pseudo store. -/
def sC3 : AlgState :=
  { T := 1, labeled := ⟨100, []⟩, unlabeled := ⟨100, []⟩,
    pseudo := ⟨100, [tA]⟩, hasUnlabeledBuffer := true }

/-- The reference configuration with routing probability 1: every
transition is routed to the labeled store, none to the unlabeled store. -/
def cfgC5 : Config := { cfgA with p := 1 }

/-- The empty initial algorithm state with an unlabeled buffer configured. -/
def sInit : AlgState :=
  { T := 0, labeled := ⟨100, []⟩, unlabeled := ⟨100, []⟩,
    pseudo := ⟨100, []⟩, hasUnlabeledBuffer := true }

/-- The state reached from the empty state under `p = 1` after collecting
one transition: one labeled entry, no unlabeled entries. -/
def sC5 : AlgState := collectRollouts cfgC5 [(1/2, tB)] sInit

/-- A refresh-boundary state with every store empty. -/
def sC5b : AlgState :=
  { T := 2, labeled := ⟨50, []⟩, unlabeled := ⟨50, []⟩,
    pseudo := ⟨50, []⟩, hasUnlabeledBuffer := true }

/-- A configuration with routing probability 0 (every draw misses the
labeled store), pseudo mode off, and training warm-up 1. -/
def cfgC7 : Config :=
  { p := 0, pseudoMode := false, sslFreq := 1, learningStarts := 1,
    gradientSteps := 1, nEnvs := 1, nActions := 4, method := "Laplace" }

/-- The empty initial state without an unlabeled buffer (pseudo mode off). -/
def sInit7 : AlgState :=
  { T := 0, labeled := ⟨100, []⟩, unlabeled := ⟨100, []⟩,
    pseudo := ⟨100, []⟩, hasUnlabeledBuffer := false }

/-- A configuration with two parallel environments and SSL cadence 3, whose
rollout-boundary timestep counts are even and hence never divisible by 3
within a short run. -/
def cfg10 : Config :=
  { p := 1, pseudoMode := true, sslFreq := 3, learningStarts := 0,
    gradientSteps := 1, nEnvs := 2, nActions := 4, method := "Laplace" }

/-- Two one-step rollout segments. -/
def runsC10 : List (List (ℚ × Transition)) := [[(1/2, tA)], [(1/2, tA)]]

/-- Default lookup at the head of a list. -/
theorem getd_cons_zero {α : Type} [Inhabited α] (x : α) (xs : List α) : getd (x :: xs) 0 = x := rfl

/-- Default lookup past the head of a list. -/
theorem getd_cons_succ {α : Type} [Inhabited α] (x : α) (xs : List α) (j : ℕ) :
    getd (x :: xs) (j + 1) = getd xs j := rfl

/-- Being a first occurrence in `x :: xs` at a successor position means
differing from the head and being a first occurrence in the tail. -/
theorem firstOcc_cons_succ {α : Type} [Inhabited α] [DecidableEq α] (x : α) (xs : List α) (i : ℕ) :
    firstOcc (x :: xs) (i + 1) ↔ (x ≠ getd xs i ∧ firstOcc xs i) := by
  unfold firstOcc
  constructor
  · intro h
    refine ⟨?_, ?_⟩
    · have h0 := h 0 (by omega)
      simpa [getd_cons_zero, getd_cons_succ] using h0
    · intro j hj
      have hh := h (j + 1) (by omega)
      simpa [getd_cons_succ] using hh
  · rintro ⟨hx, hf⟩ j hj
    cases j with
    | zero => simpa [getd_cons_zero, getd_cons_succ] using hx
    | succ k =>
        have hk : k < i := by omega
        have hh := hf k hk
        simpa [getd_cons_succ] using hh

/-- The numpy first-occurrence selection, generalized over an accumulator of
already-seen values, equals accumulator-based first-occurrence
deduplication. -/
theorem npDedupAux_eq {α : Type} [Inhabited α] [DecidableEq α] (xs : List α) :
    ∀ seen : List α,
      ((List.range xs.length).filter
          (fun i => decide (getd xs i ∉ seen ∧ firstOcc xs i))).map (getd xs)
        = dedupFirstAux seen xs := by
  induction xs with
  | nil => intro seen; simp [dedupFirstAux]
  | cons x xs ih =>
      intro seen
      rw [List.length_cons, List.range_succ_eq_map, List.filter_cons]
      by_cases hx : x ∈ seen
      · have hhead : (decide (getd (x :: xs) 0 ∉ seen ∧ firstOcc (x :: xs) 0)) = false := by
          simp [getd_cons_zero, hx]
        rw [hhead, if_neg Bool.false_ne_true]
        rw [List.filter_map, List.map_map]
        have hcong : ((List.range xs.length).filter
            ((fun i => decide (getd (x :: xs) i ∉ seen ∧ firstOcc (x :: xs) i)) ∘ Nat.succ))
            = ((List.range xs.length).filter (fun i => decide (getd xs i ∉ seen ∧ firstOcc xs i))) := by
          apply List.filter_congr
          intro i _
          apply decide_eq_decide.mpr
          simp only [Nat.succ_eq_add_one]
          rw [getd_cons_succ x xs i, firstOcc_cons_succ]
          constructor
          · rintro ⟨h1, _, h3⟩; exact ⟨h1, h3⟩
          · rintro ⟨h1, h3⟩
            exact ⟨h1, fun he => h1 (he ▸ hx), h3⟩
        have hfun : (getd (x :: xs) ∘ Nat.succ) = (getd xs : ℕ → α) :=
          funext fun i => getd_cons_succ x xs i
        rw [hcong, hfun, ih seen]
        simp [dedupFirstAux, hx]
      · have hhead : (decide (getd (x :: xs) 0 ∉ seen ∧ firstOcc (x :: xs) 0)) = true := by
          simp [getd_cons_zero, hx, firstOcc]
        rw [hhead, if_pos rfl]
        rw [List.map_cons, List.filter_map, List.map_map]
        have hcong : ((List.range xs.length).filter
            ((fun i => decide (getd (x :: xs) i ∉ seen ∧ firstOcc (x :: xs) i)) ∘ Nat.succ))
            = ((List.range xs.length).filter
                (fun i => decide (getd xs i ∉ (x :: seen) ∧ firstOcc xs i))) := by
          apply List.filter_congr
          intro i _
          apply decide_eq_decide.mpr
          simp only [Nat.succ_eq_add_one]
          rw [getd_cons_succ x xs i, firstOcc_cons_succ]
          constructor
          · rintro ⟨h1, h2, h3⟩
            refine ⟨?_, h3⟩
            intro hm
            rcases List.mem_cons.mp hm with he | hs
            · exact h2 he.symm
            · exact h1 hs
          · rintro ⟨h1, h3⟩
            refine ⟨fun hs => h1 (List.mem_cons_of_mem x hs), ?_, h3⟩
            intro he
            exact h1 (by rw [← he]; exact List.mem_cons_self x seen)
        have hfun : (getd (x :: xs) ∘ Nat.succ) = (getd xs : ℕ → α) :=
          funext fun i => getd_cons_succ x xs i
        rw [hcong, hfun, ih (x :: seen)]
        simp [dedupFirstAux, hx, getd_cons_zero]

/-- The numpy deduplication idiom of the source is exactly first-occurrence
order-preserving deduplication. -/
theorem npDedup_eq_dedupFirst {α : Type} [Inhabited α] [DecidableEq α] (xs : List α) :
    npDedup xs = dedupFirst xs := by
  unfold npDedup dedupFirst selectIdx uniqueIdxs
  rw [← npDedupAux_eq xs []]
  congr 1
  apply List.filter_congr
  intro i _
  apply decide_eq_decide.mpr
  simp

attribute [local semireducible] Rat.add Rat.mul Rat.sub Rat.inv

/-- Routing never changes the timestep counter. -/
theorem storeTransition_T (cfg : Config) (u : ℚ) (t : Transition) (s : AlgState) :
    (storeTransition cfg u t s).T = s.T := by
  unfold storeTransition
  split
  · rfl
  · split <;> rfl

/-- Collecting a rollout advances the timestep counter by the number of
collected steps times the number of parallel environments. -/
theorem collectRollouts_T (cfg : Config) (inputs : List (ℚ × Transition)) (s : AlgState) :
    (collectRollouts cfg inputs s).T = s.T + inputs.length * cfg.nEnvs := by
  induction inputs generalizing s with
  | nil => simp [collectRollouts]
  | cons i is ih =>
      have hstep : (collectStep cfg s i).T = s.T + cfg.nEnvs := by
        unfold collectStep
        rw [storeTransition_T]
      show (collectRollouts cfg is (collectStep cfg s i)).T = _
      rw [ih, hstep, List.length_cons]
      ring

/-- The refresh segment never changes the timestep counter. -/
theorem learnRefreshStep_T (cfg : Config) (s : AlgState) :
    (learnRefreshStep cfg s).1.T = s.T := by
  unfold learnRefreshStep
  split
  · dsimp only
    split <;> rfl
  · rfl

/-- An iteration's refresh-attempt flag is the refresh trigger evaluated at
its rollout-boundary timestep count. -/
theorem learnIteration_refreshAttempted (cfg : Config) (inputs : List (ℚ × Transition))
    (s : AlgState) :
    (learnIteration cfg inputs s).refreshAttempted
      = refreshCond cfg ((learnIteration cfg inputs s).state.T) := by
  unfold learnIteration
  have hT := learnRefreshStep_T cfg (collectRollouts cfg inputs s)
  dsimp only
  split <;> simp [hT]

/-- Every iteration of a run records a refresh attempt exactly when the
trigger holds at its boundary timestep count. -/
theorem learnRun_refreshAttempted (cfg : Config) (runs : List (List (ℚ × Transition))) :
    ∀ s : AlgState, ∀ it ∈ learnRun cfg runs s,
      it.refreshAttempted = refreshCond cfg it.state.T := by
  induction runs with
  | nil => intro s it h; simp [learnRun] at h
  | cons r rest ih =>
      intro s it h
      unfold learnRun at h
      by_cases he : (learnIteration cfg r s).error.isSome
      · simp only [he, if_pos] at h
        rcases List.mem_singleton.mp h with rfl
        exact learnIteration_refreshAttempted cfg r s
      · simp only [he, if_neg, Bool.false_eq_true] at h
        rcases List.mem_cons.mp h with rfl | hmem
        · exact learnIteration_refreshAttempted cfg r s
        · exact ih _ it hmem

/-- A cycle error reaches the caller of the refresh segment unchanged, with
the pseudo store exactly as the initial clear left it. -/
theorem learnRefreshStep_error (cfg : Config) (s : AlgState) (e : SSLError)
    (hc : refreshCond cfg s.T = true)
    (he : pseudoCycle cfg s.labeled.entries s.unlabeled.entries = Except.error e) :
    learnRefreshStep cfg s = ({ s with pseudo := s.pseudo.reset }, some e) := by
  unfold learnRefreshStep
  rw [hc]
  dsimp only
  rw [he]
  rfl

/-- An empty merged node set makes the cycle fail with the
insufficient-data error of the modelled graph builder. -/
theorem pseudoCycle_insufficient (cfg : Config) (lData uData : List Transition)
    (hn : mergedNodes cfg lData uData = []) :
    pseudoCycle cfg lData uData = Except.error SSLError.insufficientData := by
  unfold pseudoCycle
  dsimp only
  rw [hn]
  rfl

/-- C1: evaluation at the failing input (one labeled transition `tB`, one
unlabeled transition `tA`, with distinct features).  The cycle hands
`train_ind = [0]` to inference, but in the merged unlabeled-first node
ordering node 0 is the unlabeled transition; the unique-labeled partition
of the graph is node 1, so the seed set is not the labeled partition —
while `train_labels` does have the same length as `train_indices`. -/
theorem c1_train_indices_misaligned :
    (pseudoCycle cfgA [tB] [tA]).toOption.map (fun r => r.trainInd) = some [0] ∧
    specUniqueLabeledPartition cfgA [tB] [tA] = [1] ∧
    (pseudoCycle cfgA [tB] [tA]).toOption.map (fun r => r.trainInd)
      ≠ some (specUniqueLabeledPartition cfgA [tB] [tA]) ∧
    (pseudoCycle cfgA [tB] [tA]).toOption.map (fun r => r.trainLabels.length)
      = (pseudoCycle cfgA [tB] [tA]).toOption.map (fun r => r.trainInd.length) := by
  decide

/-- C2: evaluation at the failing input (labeled `tB`, `tB2` with rewards
0 and 1; unlabeled `tA`, `tA2`).  The pseudo store receives the unlabeled
transitions with rewards `[1, 0]`, which are the inverse-mapped predictions
of nodes 2 and 3 — not of nodes 0 and 1, the graph nodes of those
transitions (`np.delete(pseudo_rewards, train_ind)` drops the first two
entries because `train_ind = [0, 1]`): the first pseudo entry's reward
differs from the inverse-mapped predicted label of its own node. -/
theorem c2_pseudo_reward_shifted :
    (pseudoCycle cfgA [tB, tB2] [tA, tA2]).toOption.map (fun r => r.pseudoEntries)
        = some [{ tA with reward := 1 }, { tA2 with reward := 0 }] ∧
    (pseudoCycle cfgA [tB, tB2] [tA, tA2]).toOption.map (fun r => r.predLabels)
        = some [0, 1, 1, 0] ∧
    (pseudoCycle cfgA [tB, tB2] [tA, tA2]).toOption.map (fun r => r.alphabet) = some [0, 1] ∧
    getd (mergedNodes cfgA [tB, tB2] [tA, tA2]) 0 = stateActionFeature cfgA tA ∧
    (pseudoCycle cfgA [tB, tB2] [tA, tA2]).toOption.map
        (fun r => decide ((getd r.pseudoEntries 0).reward
            = ((r.alphabet.getD (r.predLabels.getD 0 0) 0 : ℤ) : ℚ))) = some false := by
  decide

/-- C3 counterexample: at a refresh boundary with both data stores empty,
the cycle error is returned to the caller of the refresh segment (`learn`
wraps the cycle in no handler), so the loop does not continue past it —
contradicting the claim that failures are caught, logged, and skipped at
cycle granularity. -/
theorem c3_cycle_error_propagates :
    learnRefreshStep cfgA sC3
        = ({ sC3 with pseudo := sC3.pseudo.reset }, some SSLError.insufficientData) ∧
    (learnRefreshStep cfgA sC3).2 ≠ none := by
  decide

/-- C3 amended: when a refresh cycle fails, the error propagates out of the
refresh segment uncaught, and the pseudo store is left exactly as the
initial clear left it (emptied, never partially populated). -/
theorem c3_cycle_failure_clears_and_propagates (cfg : Config) (s : AlgState) (e : SSLError)
    (hc : refreshCond cfg s.T = true)
    (he : pseudoCycle cfg s.labeled.entries s.unlabeled.entries = Except.error e) :
    learnRefreshStep cfg s = ({ s with pseudo := s.pseudo.reset }, some e) ∧
    (learnRefreshStep cfg s).1.pseudo.size = 0 := by
  have h := learnRefreshStep_error cfg s e hc he
  exact ⟨h, by rw [h]; rfl⟩

/-- C3 amended, witnessed at the empty-store boundary state `sC3`. -/
theorem c3_cycle_failure_clears_and_propagates_witness :
    learnRefreshStep cfgA sC3
        = ({ sC3 with pseudo := sC3.pseudo.reset }, some SSLError.insufficientData) ∧
    (learnRefreshStep cfgA sC3).1.pseudo.size = 0 :=
  c3_cycle_failure_clears_and_propagates cfgA sC3 SSLError.insufficientData (by decide) (by rfl)

/-- C4: the router draws one uniform number `u` and sends the transition to
the labeled store exactly when `u < p`, otherwise to the unlabeled store
exactly when one is configured, otherwise it discards it; the storage
effect touches exactly the selected store, and no transition is ever added
to both stores. -/
theorem c4_router_exclusive (u : ℚ) (t : Transition) (cfg : Config) (s : AlgState) :
    (route u cfg.p s.hasUnlabeledBuffer = RouteTarget.labeled ↔ u < cfg.p) ∧
    (route u cfg.p s.hasUnlabeledBuffer = RouteTarget.unlabeled
        ↔ (¬ u < cfg.p ∧ s.hasUnlabeledBuffer = true)) ∧
    (route u cfg.p s.hasUnlabeledBuffer = RouteTarget.discard
        ↔ (¬ u < cfg.p ∧ s.hasUnlabeledBuffer = false)) ∧
    (u < cfg.p → storeTransition cfg u t s = { s with labeled := s.labeled.add t }) ∧
    (¬ u < cfg.p → s.hasUnlabeledBuffer = true →
        storeTransition cfg u t s = { s with unlabeled := s.unlabeled.add t }) ∧
    (¬ u < cfg.p → s.hasUnlabeledBuffer = false → storeTransition cfg u t s = s) ∧
    ((storeTransition cfg u t s).labeled = s.labeled
        ∨ (storeTransition cfg u t s).unlabeled = s.unlabeled) := by
  unfold route storeTransition
  by_cases h : u < cfg.p
  · by_cases hb : s.hasUnlabeledBuffer <;> simp [h, hb]
  · by_cases hb : s.hasUnlabeledBuffer <;> simp [h, hb]

/-- C4, witnessed at a concrete draw below `p`: the transition goes to the
labeled store. -/
theorem c4_router_exclusive_witness :
    storeTransition cfgA 0 tA sInit = { sInit with labeled := sInit.labeled.add tA } :=
  (c4_router_exclusive 0 tA cfgA sInit).2.2.2.1 (by decide)

/-- C5 counterexample: under `p = 1` with one collected (hence labeled)
transition, the merged node set is nonempty — it contains the labeled
features — so the refresh cycle completes without `InsufficientDataError`
and merely leaves the pseudo store empty; the claim that a `p = 1.0`
refresh fails with `InsufficientDataError` is false. -/
theorem c5_p1_cycle_no_insufficient_data :
    (learnRefreshStep cfgC5 sC5).2 = none ∧
    (learnRefreshStep cfgC5 sC5).1.pseudo.entries = [] ∧
    mergedNodes cfgC5 sC5.labeled.entries sC5.unlabeled.entries ≠ [] ∧
    sC5.unlabeled.entries = [] ∧ cfgC5.p = 1 := by
  decide

/-- C5 amended: a refresh cycle attempted when the final deduplicated node
set is empty fails with the modelled builder's `InsufficientDataError`,
which propagates uncaught, and the pseudo store remains at size 0; `p = 1`
alone does not produce an empty node set once labeled data exists. -/
theorem c5_empty_node_set_fails (cfg : Config) (s : AlgState)
    (hc : refreshCond cfg s.T = true)
    (hn : mergedNodes cfg s.labeled.entries s.unlabeled.entries = []) :
    learnRefreshStep cfg s
        = ({ s with pseudo := s.pseudo.reset }, some SSLError.insufficientData) ∧
    (learnRefreshStep cfg s).1.pseudo.size = 0 := by
  have he := pseudoCycle_insufficient cfg s.labeled.entries s.unlabeled.entries hn
  have h := learnRefreshStep_error cfg s SSLError.insufficientData hc he
  exact ⟨h, by rw [h]; rfl⟩

/-- C5 amended, witnessed at the all-empty boundary state `sC5b`. -/
theorem c5_empty_node_set_fails_witness :
    learnRefreshStep cfgA sC5b
        = ({ sC5b with pseudo := sC5b.pseudo.reset }, some SSLError.insufficientData) ∧
    (learnRefreshStep cfgA sC5b).1.pseudo.size = 0 :=
  c5_empty_node_set_fails cfgA sC5b (by decide) (by decide)

/-- C6 counterexample: a configuration with an unsupported method name, a
cadence of 0, and a probability outside the unit interval is accepted by
the constructor, which returns normally instead of surfacing a
configuration error at setup. -/
theorem c6_invalid_config_accepted :
    offPolicyInit "NotAMethod" 0 2 true 100 1 1 4
        = Except.ok { p := 2, pseudoMode := true, sslFreq := 0, learningStarts := 100,
                      gradientSteps := 1, nEnvs := 1, nActions := 4, method := "NotAMethod" }
      ∧ ¬ ((2 : ℚ) ≤ 1) ∧ ((0 : ℕ) ≤ 0) ∧ "NotAMethod" ∉ supportedMethods := by
  refine ⟨rfl, by norm_num, le_refl 0, by decide⟩

/-- C6 amended: construction performs no validation at all — it succeeds on
every method name, cadence, and probability, recording the values
unchanged; invalid values surface only later (an unsupported method at
inference time, a zero cadence or out-of-range probability silently). -/
theorem c6_constructor_never_validates (method : String) (sslFreq : ℕ) (p : ℚ) (pm : Bool)
    (ls : ℕ) (gs : ℤ) (ne na : ℕ) :
    ∃ cfg : Config, offPolicyInit method sslFreq p pm ls gs ne na = Except.ok cfg ∧
      cfg.method = method ∧ cfg.sslFreq = sslFreq ∧ cfg.p = p :=
  ⟨_, rfl, rfl, rfl, rfl⟩

/-- C7 counterexample: with routing probability 0 every transition misses
the labeled store, yet after two collection steps the timestep count
exceeds `learning_starts = 1`, so the iteration calls `train` while the
labeled store holds zero transitions — training is not gated on the
labeled store's size. -/
theorem c7_train_with_empty_labeled_store :
    (learnIteration cfgC7 [(0, tA), (0, tA)] sInit7).didTrain = true ∧
    (learnIteration cfgC7 [(0, tA), (0, tA)] sInit7).state.labeled.size = 0 ∧
    cfgC7.learningStarts = 1 ∧
    ¬ ((learnIteration cfgC7 [(0, tA), (0, tA)] sInit7).state.labeled.size
        > cfgC7.learningStarts) := by
  decide

/-- C7 amended: `train` is invoked exactly when no refresh error occurred,
the post-rollout global timestep count is positive and exceeds
`learning_starts`, and the resolved gradient-step count is positive — the
gate reads the timestep counter, not the labeled store's size. -/
theorem c7_train_gate_on_timesteps (cfg : Config) (inputs : List (ℚ × Transition))
    (s : AlgState) :
    (learnIteration cfg inputs s).didTrain = true ↔
      ((learnIteration cfg inputs s).error = none ∧
       0 < s.T + inputs.length * cfg.nEnvs ∧
       cfg.learningStarts < s.T + inputs.length * cfg.nEnvs ∧
       0 < resolveGradSteps cfg inputs) := by
  unfold learnIteration
  dsimp only
  have hT := learnRefreshStep_T cfg (collectRollouts cfg inputs s)
  have hcT := collectRollouts_T cfg inputs s
  split
  · simp
  · simp [hT, hcT, and_assoc]

/-- C7 amended, witnessed at a concrete one-step rollout. -/
theorem c7_train_gate_on_timesteps_witness :
    (learnIteration cfgC7 [(0, tA)] sInit7).didTrain = true ↔
      ((learnIteration cfgC7 [(0, tA)] sInit7).error = none ∧
       0 < sInit7.T + [((0 : ℚ), tA)].length * cfgC7.nEnvs ∧
       cfgC7.learningStarts < sInit7.T + [((0 : ℚ), tA)].length * cfgC7.nEnvs ∧
       0 < resolveGradSteps cfgC7 [(0, tA)]) :=
  c7_train_gate_on_timesteps cfgC7 [(0, tA)] sInit7

/-- C8: the cycle's node construction — the numpy unique/sort/index idiom
applied to each feature set, to their unlabeled-then-labeled concatenation,
and again to the result — is exactly first-occurrence order-preserving
deduplication of each set followed by first-occurrence deduplication of the
concatenation, and this final pass is the ordered node sequence of the
graph. -/
theorem c8_graph_nodes_dedup_merge (cfg : Config) (lData uData : List Transition) :
    mergedNodes cfg lData uData
      = dedupFirst (dedupFirst (featureList cfg uData) ++ dedupFirst (featureList cfg lData)) := by
  unfold mergedNodes
  rw [npDedup_eq_dedupFirst, npDedup_eq_dedupFirst, npDedup_eq_dedupFirst]

/-- C9: the refresh cycle one-hot encodes actions with hard-coded width 4
for every configuration (the configured action-space size is ignored), the
state-action feature always has length `obs length + 4`, and the encoding
is a genuine one-hot vector exactly when the action lies in `{0, 1, 2, 3}`. -/
theorem c9_onehot_width_hardcoded (cfg cfg2 : Config) (a : ℤ) (t : Transition) :
    cycleActionOneHot cfg a = cycleActionOneHot cfg2 a ∧
    (cycleActionOneHot cfg a).length = 4 ∧
    (stateActionFeature cfg t).length = t.obs.length + 4 ∧
    ((∃ i, i < 4 ∧ cycleActionOneHot cfg a = unitVec 4 i) ↔ (0 ≤ a ∧ a < 4)) := by
  have hlist : cycleActionOneHot cfg a
      = [if a = 0 then (1 : ℚ) else 0, if a = 1 then 1 else 0,
         if a = 2 then 1 else 0, if a = 3 then 1 else 0] := rfl
  have hlen : ∀ b : ℤ, (cycleActionOneHot cfg b).length = 4 := fun b => rfl
  refine ⟨rfl, hlen a, ?_, ?_, ?_⟩
  · show (t.obs ++ cycleActionOneHot cfg t.action).length = _
    rw [List.length_append, hlen]
  · rintro ⟨i, hi, heq⟩
    by_contra hcon
    have hne : a ≠ 0 ∧ a ≠ 1 ∧ a ≠ 2 ∧ a ≠ 3 := by omega
    rw [hlist, if_neg hne.1, if_neg hne.2.1, if_neg hne.2.2.1, if_neg hne.2.2.2] at heq
    have hcomp : ([0, 0, 0, 0] : List ℚ).getD i 0 = (unitVec 4 i).getD i 0 := by rw [heq]
    interval_cases i
    · revert hcomp; decide
    · revert hcomp; decide
    · revert hcomp; decide
    · revert hcomp; decide
  · rintro ⟨h0, h4⟩
    interval_cases a
    · exact ⟨0, by norm_num, by rfl⟩
    · exact ⟨1, by norm_num, by rfl⟩
    · exact ⟨2, by norm_num, by rfl⟩
    · exact ⟨3, by norm_num, by rfl⟩

/-- C9, witnessed at the out-of-range action 5: no one-hot component is
set, as 5 is not below 4. -/
theorem c9_onehot_width_hardcoded_witness :
    (∃ i, i < 4 ∧ cycleActionOneHot cfgA 5 = unitVec 4 i) ↔ ((0 : ℤ) ≤ 5 ∧ (5 : ℤ) < 4) :=
  (c9_onehot_width_hardcoded cfgA cfgC7 5 tA).2.2.2

/-- C10: a refresh is attempted at a rollout boundary exactly when pseudo
mode is on, the global timestep count is divisible by `ssl_freq`, and it
exceeds `learning_starts / 2`; the timestep count advances by the number of
parallel environments per collection step; and a run none of whose boundary
counts satisfies the trigger performs no refresh at all. -/
theorem c10_refresh_cadence (cfg : Config) (bt : ℕ) (inputs : List (ℚ × Transition))
    (s0 : AlgState) (runs : List (List (ℚ × Transition))) (s : AlgState) :
    (refreshCond cfg bt = true
        ↔ (cfg.pseudoMode = true ∧ cfg.sslFreq ∣ bt ∧ cfg.learningStarts / 2 < bt)) ∧
    ((collectRollouts cfg inputs s0).T = s0.T + inputs.length * cfg.nEnvs) ∧
    ((∀ it ∈ learnRun cfg runs s, refreshCond cfg it.state.T = false) →
       ∀ it ∈ learnRun cfg runs s, it.refreshAttempted = false) := by
  refine ⟨?_, collectRollouts_T cfg inputs s0, ?_⟩
  · unfold refreshCond
    simp only [Bool.and_eq_true, decide_eq_true_eq, beq_iff_eq]
    constructor
    · rintro ⟨⟨hp, hm⟩, hl⟩
      exact ⟨hp, Nat.dvd_of_mod_eq_zero hm, hl⟩
    · rintro ⟨hp, hd, hl⟩
      exact ⟨⟨hp, Nat.mod_eq_zero_of_dvd hd⟩, hl⟩
  · intro hall it hmem
    rw [learnRun_refreshAttempted cfg runs s it hmem]
    exact hall it hmem

/-- C10, witnessed on a two-segment run with two environments and cadence
3, whose boundary counts 2 and 4 never align: no refresh is attempted. -/
theorem c10_refresh_cadence_witness :
    (learnRun cfg10 runsC10 sInit).all (fun it => !it.refreshAttempted) = true := by
  have h := (c10_refresh_cadence cfg10 0 [] sInit runsC10 sInit).2.2 (by decide)
  rw [List.all_eq_true]
  intro it hit
  rw [h it hit]
  rfl

end SSL
